import Mathlib

/-!
Verification development for the mini racing game's authoritative
multiplayer core.

The definitions below are a shallow embedding of the TypeScript source:

* `server/src/game/Game.ts` (the authoritative race simulation),
* `server/src/game/Track.ts` (static track geometry),
* `server/src/index.ts` (session/room registry and message dispatch),
* `src/game/Game.ts` on the client (snapshot handling / reconciliation).

JavaScript numbers are modelled as rationals (`ℚ`); the trigonometric
functions `Math.cos` / `Math.sin` used by the kinematics are external
library calls and are modelled as an explicit `MathEnv` parameter.
JavaScript `Map`s are modelled as association lists in insertion order
(`Map.set` on a fresh key appends; `Map.delete` removes the entry).
The `-1` sentinel returned by `Array.prototype.findIndex` is modelled
with `Option`.
-/

namespace Racing

/-- External math library surface used by the kinematics (`Math.cos`,
`Math.sin` in the source). -/
structure MathEnv where
  cos : ℚ → ℚ
  sin : ℚ → ℚ

structure Vec2 where
  x : ℚ
  y : ℚ
deriving DecidableEq, Repr

/-- Input flags, from `InputState` in `server/src/game/Game.ts`. -/
structure InputState where
  accelerate : Bool
  brake : Bool
  left : Bool
  right : Bool
  handbrake : Bool
  reset : Bool
deriving DecidableEq, Repr

/-- `DEFAULT_INPUT` in `server/src/game/Game.ts`. -/
def DEFAULT_INPUT : InputState :=
  ⟨false, false, false, false, false, false⟩

/-- One axis-aligned checkpoint rectangle, from `server/src/game/Track.ts`. -/
structure Checkpoint where
  x : ℚ
  y : ℚ
  width : ℚ
  height : ℚ
deriving DecidableEq, Repr

/-- Static track geometry, from `server/src/game/Track.ts`. -/
structure Track where
  width : ℚ
  height : ℚ
  spawn : Vec2
  checkpoints : List Checkpoint
deriving DecidableEq, Repr

/-- The `Track` constructor in `server/src/game/Track.ts`. -/
def Track.make (width height : ℚ) : Track :=
  { width := width
    height := height
    spawn := ⟨width * (1/2), height * (78/100)⟩
    checkpoints := [
      ⟨width * (45/100), height * (72/100), width * (1/10), 8⟩,
      ⟨width * (78/100), height * (45/100), 8, height * (12/100)⟩,
      ⟨width * (18/100), height * (34/100), 8, height * (12/100)⟩] }

/-- Rectangle containment test used by `Track.getCheckpointIndex`. -/
def Checkpoint.containsPoint (c : Checkpoint) (p : Vec2) : Bool :=
  decide (c.x ≤ p.x) && decide (p.x ≤ c.x + c.width) &&
  decide (c.y ≤ p.y) && decide (p.y ≤ c.y + c.height)

/-- `Track.getCheckpointIndex`: index of the checkpoint containing the
point, `none` for the source's `-1` sentinel. -/
def Track.getCheckpointIndex (t : Track) (p : Vec2) : Option ℕ :=
  t.checkpoints.findIdx? (fun c => c.containsPoint p)

/-- Per-player simulation state, from `PlayerInternal` in
`server/src/game/Game.ts`.  The input queue is the `Map<number,
InputState>` in insertion order. -/
structure PlayerInternal where
  id : String
  name : String
  position : Vec2
  heading : ℚ
  speed : ℚ
  lap : ℕ
  lastProcessedInputSequence : ℤ
  inputQueue : List (ℤ × InputState)
  lastInput : InputState
  spawn : Vec2
  nextCheckpoint : ℕ
  onCheckpoint : Bool
  lapActive : Bool
deriving DecidableEq, Repr

def ACCELERATION : ℚ := 28
def BRAKE : ℚ := 36
def TURN_RATE : ℚ := 36/10
def DRAG : ℚ := 22/10
def MAX_SPEED : ℚ := 55
def MAX_REVERSE : ℚ := -20
def LAPS_TO_WIN : ℕ := 5

/-- The race-level flags mutated while iterating over players in
`Game.step` (`this.raceFinished` / `this.winner`). The winner is an
(id, name) pair. -/
structure RaceFlags where
  raceFinished : Bool
  winner : Option (String × String)
deriving DecidableEq, Repr

/-- Whole-game state, from the `Game` class fields in
`server/src/game/Game.ts`; the player map is kept in insertion order. -/
structure Game where
  players : List PlayerInternal
  tick : ℕ
  track : Track
  raceFinished : Bool
  winner : Option (String × String)
deriving DecidableEq, Repr

/-- A freshly added player, from the literal in `Game.addPlayer`. -/
def freshPlayer (t : Track) (id name : String) : PlayerInternal :=
  { id := id
    name := name
    position := t.spawn
    heading := 0
    speed := 0
    lap := 0
    lastProcessedInputSequence := -1
    inputQueue := []
    lastInput := DEFAULT_INPUT
    spawn := t.spawn
    nextCheckpoint := 1
    onCheckpoint := false
    lapActive := false }

/-- `Game` constructor state: empty player map, tick 0, a 1024×768 track,
race not finished. -/
def Game.init : Game :=
  { players := [], tick := 0, track := Track.make 1024 768,
    raceFinished := false, winner := none }

/-- `this.players.has(id)` on the player map. -/
def Game.hasPlayer (g : Game) (id : String) : Bool :=
  g.players.any (fun p => p.id = id)

/-- `Game.addPlayer`: no-op when the id is already present, otherwise
insert a fresh player at spawn. -/
def Game.addPlayer (g : Game) (id name : String) : Game :=
  if g.hasPlayer id then g
  else { g with players := g.players ++ [freshPlayer g.track id name] }

/-- `Game.updatePlayerName`. -/
def Game.updatePlayerName (g : Game) (id name : String) : Game :=
  { g with players :=
      g.players.map (fun p => if p.id = id then { p with name := name } else p) }

/-- `Game.removePlayer`. -/
def Game.removePlayer (g : Game) (id : String) : Game :=
  { g with players := g.players.filter (fun p => p.id ≠ id) }

/-- `player.inputQueue.get(sequence)` on the queue association list. -/
def lookupSeq (q : List (ℤ × InputState)) (s : ℤ) : Option InputState :=
  (q.find? (fun e => e.1 = s)).map Prod.snd

/-- The body of `Game.queueInput` for one player: insert only when the
sequence key is not already buffered. -/
def queuePlayer (seq : ℤ) (input : InputState) (p : PlayerInternal) : PlayerInternal :=
  if (lookupSeq p.inputQueue seq).isSome then p
  else { p with inputQueue := p.inputQueue ++ [(seq, input)] }

/-- `Game.queueInput`: route to the player with the given id (no-op when
absent). -/
def Game.queueInput (g : Game) (id : String) (seq : ℤ) (input : InputState) : Game :=
  { g with players :=
      g.players.map (fun p => if p.id = id then queuePlayer seq input p else p) }

/-- The `candidateSequences` local of `Game.consumeNextInput`: buffered
sequences strictly greater than `lastProcessedInputSequence`, sorted
ascending (the numeric comparator sort of the source). -/
def candidateSequences (p : PlayerInternal) : List ℤ :=
  ((p.inputQueue.map Prod.fst).filter
    (fun s => decide (p.lastProcessedInputSequence < s))).insertionSort (· ≤ ·)

/-- `Game.consumeNextInput`: pop the head of the sorted candidate list,
record it as processed and apply its input. -/
def consumeNextInput (p : PlayerInternal) : PlayerInternal :=
  match candidateSequences p with
  | [] => p
  | nextSequence :: _ =>
    match lookupSeq p.inputQueue nextSequence with
    | none => p
    | some input =>
      { p with
        inputQueue := p.inputQueue.filter (fun e => e.1 ≠ nextSequence)
        lastProcessedInputSequence := nextSequence
        lastInput := input }

/-- Speed clamp to `[MAX_REVERSE, MAX_SPEED]` in `Game.updatePlayer`. -/
def clampSpeed (v : ℚ) : ℚ :=
  min MAX_SPEED (max MAX_REVERSE v)

/-- `Game.updatePlayer`: either the reset branch (return to spawn,
clearing the reset flag) or one kinematic integration step. -/
def updatePlayer (env : MathEnv) (dt : ℚ) (p : PlayerInternal) : PlayerInternal :=
  if p.lastInput.reset then
    { p with
      position := p.spawn
      speed := 0
      heading := 0
      nextCheckpoint := 1
      onCheckpoint := false
      lapActive := false
      lastInput := { p.lastInput with reset := false } }
  else
    let heading1 := if p.lastInput.left then p.heading - TURN_RATE * dt else p.heading
    let heading2 := if p.lastInput.right then heading1 + TURN_RATE * dt else heading1
    let speed1 := if p.lastInput.accelerate then p.speed + ACCELERATION * dt else p.speed
    let speed2 := if p.lastInput.brake then speed1 - BRAKE * dt else speed1
    let speed3 := if p.lastInput.handbrake then speed2 * (86/100) else speed2
    let drag := max 0 (1 - DRAG * dt)
    let speed4 := clampSpeed (speed3 * drag)
    { p with
      heading := heading2
      speed := speed4
      position := ⟨p.position.x + env.cos heading2 * speed4 * dt,
                   p.position.y + env.sin heading2 * speed4 * dt⟩ }

/-- `Game.updateCheckpointProgress`: edge-triggered checkpoint and lap
bookkeeping, also updating the race-level finished/winner flags. -/
def updateCheckpointProgress (t : Track) (fl : RaceFlags) (p : PlayerInternal) :
    PlayerInternal × RaceFlags :=
  match t.getCheckpointIndex p.position with
  | none => ({ p with onCheckpoint := false }, fl)
  | some checkpointIndex =>
    if p.onCheckpoint then (p, fl)
    else
      let p1 := { p with onCheckpoint := true }
      if checkpointIndex ≠ p1.nextCheckpoint then (p1, fl)
      else if checkpointIndex = 0 ∧ p1.lapActive = true then
        let p2 := { p1 with lap := p1.lap + 1, lapActive := false, nextCheckpoint := 1 }
        if fl.raceFinished = false ∧ LAPS_TO_WIN ≤ p2.lap then
          (p2, ⟨true, some (p2.id, p2.name)⟩)
        else (p2, fl)
      else
        let p2 := { p1 with nextCheckpoint := (p1.nextCheckpoint + 1) % t.checkpoints.length }
        let p3 := if checkpointIndex = 1 then { p2 with lapActive := true } else p2
        (p3, fl)

/-- One player's share of the `players.forEach` body in `Game.step`. -/
def stepPlayer (env : MathEnv) (dt : ℚ) (t : Track) (fl : RaceFlags)
    (p : PlayerInternal) : PlayerInternal × RaceFlags :=
  updateCheckpointProgress t fl (updatePlayer env dt (consumeNextInput p))

/-- The `players.forEach` loop in `Game.step`, threading the race flags
through the players in insertion order. -/
def stepPlayers (env : MathEnv) (dt : ℚ) (t : Track) :
    List PlayerInternal → RaceFlags → List PlayerInternal × RaceFlags
  | [], fl => ([], fl)
  | p :: ps, fl =>
    let q := stepPlayer env dt t fl p
    let rest := stepPlayers env dt t ps q.2
    (q.1 :: rest.1, rest.2)

/-- `Game.step`: the tick counter always advances; when the race is
already finished nothing else happens, otherwise every player is
consumed, integrated and checkpoint-checked. -/
def Game.step (env : MathEnv) (dt : ℚ) (g : Game) : Game :=
  let g1 := { g with tick := g.tick + 1 }
  if g1.raceFinished then g1
  else
    let res := stepPlayers env dt g1.track g1.players ⟨g1.raceFinished, g1.winner⟩
    { g1 with players := res.1, raceFinished := res.2.raceFinished, winner := res.2.winner }

/-- The per-player part of `Game.resetRace`. -/
def resetPlayer (p : PlayerInternal) : PlayerInternal :=
  { p with
    position := p.spawn
    heading := 0
    speed := 0
    lap := 0
    lastProcessedInputSequence := -1
    inputQueue := []
    lastInput := DEFAULT_INPUT
    nextCheckpoint := 1
    onCheckpoint := false
    lapActive := false }

/-- `Game.resetRace`. -/
def Game.resetRace (g : Game) : Game :=
  { g with
    raceFinished := false
    winner := none
    tick := 0
    players := g.players.map resetPlayer }

/-- The buffered sequence numbers of a player's input queue. -/
def keysOf (p : PlayerInternal) : List ℤ :=
  p.inputQueue.map Prod.fst

/-!
Server model, from `server/src/index.ts`.  Randomness (`randomUUID`,
`randomInt`) is an external input, so fresh ids and name suffixes are
passed as parameters.  A pending countdown timer is modelled by the
presence of its track id in `countdownTimers` (the `setInterval`
registration and `clearInterval` cancellation); the timer's asynchronous
firing is wall-clock behaviour outside the embedding.  Socket readiness
checks are dropped and sends are modelled as emitted
(recipient session id, message) events.
-/

/-- A connected session, from the `Session` record in
`server/src/index.ts` (the socket handle is left to the transport). -/
structure Session where
  id : String
  name : String
  trackId : Option String
deriving DecidableEq, Repr

/-- A track room, from the `TrackRoom` record in `server/src/index.ts`. -/
structure TrackRoom where
  id : String
  players : List (String × String)
  capacity : ℕ
  hostId : String
deriving DecidableEq, Repr

/-- The fixed `trackCapacity` constant. -/
def trackCapacity : ℕ := 2

/-- The server's mutable top-level state: the single shared `game`, the
session registry, the room registry and the countdown-timer registry. -/
structure ServerState where
  game : Game
  sessions : List Session
  tracks : List TrackRoom
  countdownTimers : List String
  tickCount : ℕ
deriving DecidableEq, Repr

/-- Kinds of server-to-client sends relevant to the modelled handlers
(payload contents beyond identification are omitted). -/
inductive OutMsg where
  | error (message : String)
  | lobbyState
  | trackState (trackId : String)
  | sessionInfo
  | raceCountdown (secondsLeft : ℤ)
deriving DecidableEq, Repr

/-- Emitted sends: (recipient session id, message). -/
abbrev Out := List (String × OutMsg)

/-- Server state at process start. -/
def ServerState.init : ServerState :=
  ⟨Game.init, [], [], [], 0⟩

/-- `broadcastLobbyState`: one send per connected session. -/
def broadcastLobbyState (s : ServerState) : Out :=
  s.sessions.map (fun ss => (ss.id, OutMsg.lobbyState))

/-- `tracks.get(trackId)` on the room registry. -/
def getTrack (s : ServerState) (trackId : String) : Option TrackRoom :=
  s.tracks.find? (fun t => t.id = trackId)

/-- `sendTrackState`: one send per member of the room, nothing when the
room is absent. -/
def sendTrackState (s : ServerState) (trackId : String) : Out :=
  match getTrack s trackId with
  | none => []
  | some track => track.players.map (fun pl => (pl.1, OutMsg.trackState trackId))

/-- `sendError`: a single targeted send to the requester. -/
def sendError (sess : Session) (message : String) : Out :=
  [(sess.id, OutMsg.error message)]

/-- Update of one session's `trackId` field in the registry. -/
def setSessionTrack (sessions : List Session) (sid : String) (tid : Option String) :
    List Session :=
  sessions.map (fun ss => if ss.id = sid then { ss with trackId := tid } else ss)

/-- `leaveTrack`: remove the member from its room, pass host to the
first remaining member when the host left, destroy the room and cancel
its countdown timer when it empties, clear the session's room pointer,
then notify the room and the lobby. -/
def leaveTrack (s : ServerState) (sess : Session) : ServerState × Out :=
  match sess.trackId with
  | none => (s, [])
  | some tid =>
    let tt : List TrackRoom × List String :=
      match s.tracks.find? (fun t => t.id = tid) with
      | none => (s.tracks, s.countdownTimers)
      | some track =>
        let remaining := track.players.filter (fun pl => pl.1 ≠ sess.id)
        let newHost :=
          if track.hostId = sess.id then ((remaining.head?).map Prod.fst).getD track.hostId
          else track.hostId
        if remaining.isEmpty then
          (s.tracks.filter (fun t => t.id ≠ tid),
           s.countdownTimers.filter (fun x => x ≠ tid))
        else
          (s.tracks.map (fun t =>
             if t.id = tid then { t with players := remaining, hostId := newHost } else t),
           s.countdownTimers)
    let s1 : ServerState :=
      { s with
        tracks := tt.1
        countdownTimers := tt.2
        sessions := setSessionTrack s.sessions sess.id none }
    (s1, sendTrackState s1 tid ++ broadcastLobbyState s1)

/-- `createTrackForSession`: reject a duplicate id with a targeted error
and no state change; otherwise leave any current room, register the new
room with the requester as sole member and host, and notify.  `freshId`
stands in for the `randomUUID()` fallback. -/
def createTrackForSession (s : ServerState) (sess : Session)
    (requestedId : Option String) (freshId : String) : ServerState × Out :=
  let trackId := requestedId.getD freshId
  if s.tracks.any (fun t => t.id = trackId) then
    (s, sendError sess "Track already exists.")
  else
    let l := leaveTrack s sess
    let track : TrackRoom :=
      { id := trackId, players := [(sess.id, sess.name)],
        capacity := trackCapacity, hostId := sess.id }
    let s2 : ServerState :=
      { l.1 with
        tracks := l.1.tracks ++ [track]
        sessions := setSessionTrack l.1.sessions sess.id (some trackId) }
    (s2, l.2 ++ broadcastLobbyState s2 ++ sendTrackState s2 trackId)

/-- `joinTrackForSession`: reject an absent or full room with a targeted
error and no state change; otherwise leave any current room, append the
member and notify.  The capacity check reads the room looked up before
the leave, as in the source. -/
def joinTrackForSession (s : ServerState) (sess : Session) (trackId : String) :
    ServerState × Out :=
  match s.tracks.find? (fun t => t.id = trackId) with
  | none => (s, sendError sess "Track not found.")
  | some track =>
    if track.capacity ≤ track.players.length then
      (s, sendError sess "Track is full.")
    else
      let l := leaveTrack s sess
      let s2 : ServerState :=
        { l.1 with
          tracks := l.1.tracks.map (fun t =>
            if t.id = trackId then { t with players := t.players ++ [(sess.id, sess.name)] }
            else t)
          sessions := setSessionTrack l.1.sessions sess.id (some trackId) }
      (s2, l.2 ++ broadcastLobbyState s2 ++ sendTrackState s2 trackId)

/-- `startRaceForTrack`: no-op when a countdown is already pending,
otherwise emit the first countdown message and register the timer. -/
def startRaceForTrack (s : ServerState) (track : TrackRoom) : ServerState × Out :=
  if s.countdownTimers.contains track.id then (s, [])
  else
    ({ s with countdownTimers := s.countdownTimers ++ [track.id] },
     track.players.map (fun pl => (pl.1, OutMsg.raceCountdown 3)))

/-- Shape-validated client-to-server messages (malformed frames are
dropped before reaching the handlers and are not modelled). -/
inductive ClientMsg where
  | input (sequence : ℤ) (payload : InputState)
  | sessionHello (browserName : String)
  | trackCreate (trackId : Option String)
  | trackJoin (trackId : String)
  | raceStart
  | raceRestart
deriving DecidableEq, Repr

/-- `buildPlayerName`: trimmed browser name (or "Player") plus a random
4-digit suffix, the suffix being an external input. -/
def buildPlayerName (browserName : String) (suffix : String) : String :=
  (if browserName.trim = "" then "Player" else browserName.trim) ++ "-" ++ suffix

/-- The `session:hello` branch of the message handler. -/
def handleSessionHello (s : ServerState) (sess : Session) (browserName : String)
    (suffix : String) : ServerState × Out :=
  let name := buildPlayerName browserName suffix
  let s1 : ServerState :=
    { s with
      sessions := s.sessions.map (fun ss =>
        if ss.id = sess.id then { ss with name := name } else ss)
      game := s.game.updatePlayerName sess.id name }
  match sess.trackId with
  | none => (s1, broadcastLobbyState s1)
  | some tid =>
    match getTrack s1 tid with
    | none => (s1, broadcastLobbyState s1)
    | some _ =>
      let s2 : ServerState :=
        { s1 with
          tracks := s1.tracks.map (fun t =>
            if t.id = tid then
              { t with players := t.players.map (fun pl =>
                  if pl.1 = sess.id then (pl.1, name) else pl) }
            else t) }
      (s2, sendTrackState s2 tid ++ broadcastLobbyState s2)

/-- The `socket.on("message")` dispatch in `server/src/index.ts`: each
guard in turn, and (decisively for race restarting) a `race:restart`
frame matches no guard, so it falls through with no effect. -/
def handleMessage (s : ServerState) (sid : String) (msg : ClientMsg)
    (freshId : String) (nameSuffix : String) : ServerState × Out :=
  match s.sessions.find? (fun ss => ss.id = sid) with
  | none => (s, [])
  | some sess =>
    match msg with
    | ClientMsg.input seq payload => ({ s with game := s.game.queueInput sid seq payload }, [])
    | ClientMsg.sessionHello browserName => handleSessionHello s sess browserName nameSuffix
    | ClientMsg.trackCreate requestedId => createTrackForSession s sess requestedId freshId
    | ClientMsg.trackJoin trackId => joinTrackForSession s sess trackId
    | ClientMsg.raceStart =>
      match sess.trackId with
      | none => (s, [])
      | some tid =>
        match getTrack s tid with
        | none => (s, [])
        | some track =>
          if track.hostId = sess.id then startRaceForTrack s track else (s, [])
    | ClientMsg.raceRestart => (s, [])

/-- The `server.on("connection")` handler: register the session, add the
player to the shared game, send session info and broadcast the lobby. -/
def handleConnection (s : ServerState) (sid : String) : ServerState × Out :=
  let sess : Session := ⟨sid, "Player", none⟩
  let s1 : ServerState :=
    { s with sessions := s.sessions ++ [sess], game := s.game.addPlayer sid "Player" }
  (s1, (sid, OutMsg.sessionInfo) :: broadcastLobbyState s1)

/-- `Game.STEP` (1 / TICK_RATE). -/
def STEP : ℚ := 1/60

/-- One firing of the global `tickInterval`: the single shared game is
stepped unconditionally (state broadcasting every Nth tick carries no
state change and is omitted). -/
def serverTick (env : MathEnv) (s : ServerState) : ServerState :=
  { s with game := s.game.step env STEP, tickCount := s.tickCount + 1 }

/-!
Client model, from the client `Game` class in `src/game/Game.ts`
(snapshot handling and reconciliation).  Snapshots are modelled already
shape-validated: `readPlayerStates` / `readLastProcessedSequence` keep
exactly the well-typed parts, which the `Snapshot` structure carries
directly.
-/

/-- Client-side car, the fields of `Car` touched by reconciliation. -/
structure Car where
  position : Vec2
  heading : ℚ
  velocity : Vec2
deriving DecidableEq, Repr

/-- One shape-valid entry of a snapshot's `players` array. -/
structure NetPlayer where
  id : String
  position : Vec2
  heading : ℚ
  speed : ℚ
deriving DecidableEq, Repr

/-- A shape-validated `state` snapshot payload. -/
structure Snapshot where
  players : List NetPlayer
  lastProcessedInputSequence : Option ℤ
deriving DecidableEq, Repr

/-- Client game state touched by `handleNetworkState`. -/
structure ClientState where
  cars : List (String × Car)
  localPlayerId : String
  sessionId : Option String
  lastAckedInputSequence : ℤ
deriving DecidableEq, Repr

/-- `this.cars.set(id, car)`: replace in place when the key exists,
append otherwise. -/
def setCar (cars : List (String × Car)) (id : String) (car : Car) :
    List (String × Car) :=
  if cars.any (fun e => e.1 = id) then
    cars.map (fun e => if e.1 = id then (id, car) else e)
  else cars ++ [(id, car)]

/-- `applyServerState`: the car's fields are overwritten from the
snapshot entry (velocity derived from heading and speed). -/
def applyServerState (env : MathEnv) (player : NetPlayer) : Car :=
  ⟨player.position, player.heading,
   ⟨env.cos player.heading * player.speed, env.sin player.heading * player.speed⟩⟩

/-- `shouldReconcileLocal`: squared distance above the fixed threshold 144. -/
def shouldReconcileLocal (localPos serverPos : Vec2) : Bool :=
  decide (144 < (localPos.x - serverPos.x) * (localPos.x - serverPos.x) +
    (localPos.y - serverPos.y) * (localPos.y - serverPos.y))

/-- `reconcileLocalCar`: exponential blend (factor 0.2) of position,
heading and velocity toward the snapshot. -/
def reconcileLocalCar (env : MathEnv) (car : Car) (player : NetPlayer) : Car :=
  { position := ⟨car.position.x + (player.position.x - car.position.x) * (2/10),
                 car.position.y + (player.position.y - car.position.y) * (2/10)⟩
    heading := car.heading + (player.heading - car.heading) * (2/10)
    velocity := ⟨car.velocity.x + (env.cos player.heading * player.speed - car.velocity.x) * (2/10),
                 car.velocity.y + (env.sin player.heading * player.speed - car.velocity.y) * (2/10)⟩ }

/-- `syncLocalPlayerId`: once the session id is known, re-key the local
car under it. -/
def syncLocalPlayerId (c : ClientState) : ClientState :=
  match c.sessionId with
  | none => c
  | some sid =>
    if sid = c.localPlayerId then c
    else
      match (c.cars.find? (fun e => e.1 = c.localPlayerId)).map Prod.snd with
      | some car =>
        { c with
          cars := setCar (c.cars.filter (fun e => e.1 ≠ c.localPlayerId)) sid car
          localPlayerId := sid }
      | none => { c with localPlayerId := sid }

/-- One snapshot entry's share of the `players.forEach` in `syncCars`:
the local car is spawned when missing or blended when diverged; a remote
car is spawned or overwritten from the snapshot. -/
def syncCarsOne (env : MathEnv) (localId : String) (cars : List (String × Car))
    (player : NetPlayer) : List (String × Car) :=
  let car? := (cars.find? (fun e => e.1 = player.id)).map Prod.snd
  if player.id = localId then
    match car? with
    | none => setCar cars player.id (applyServerState env player)
    | some car =>
      if shouldReconcileLocal car.position player.position then
        setCar cars player.id (reconcileLocalCar env car player)
      else cars
  else
    match car? with
    | some _ => setCar cars player.id (applyServerState env player)
    | none => setCar cars player.id (applyServerState env player)

/-- `syncCars`: process every snapshot entry, then drop cars (other than
the local one) absent from the snapshot. -/
def syncCars (env : MathEnv) (c : ClientState) (players : List NetPlayer) : ClientState :=
  let cars1 := players.foldl (syncCarsOne env c.localPlayerId) c.cars
  { c with cars := cars1.filter (fun e =>
      e.1 = c.localPlayerId || players.any (fun pl => pl.id = e.1)) }

/-- The part of `handleNetworkState` that runs before the staleness
check: local-id sync, then car sync whenever the snapshot carries any
player. -/
def clientSyncPhase (env : MathEnv) (c : ClientState) (snap : Snapshot) : ClientState :=
  let c1 := syncLocalPlayerId c
  if 0 < snap.players.length then syncCars env c1 snap.players else c1

/-- `handleNetworkState`: car sync first, then the ack watermark is
advanced only when the reported sequence is strictly ahead. -/
def handleNetworkState (env : MathEnv) (c : ClientState) (snap : Snapshot) : ClientState :=
  let c2 := clientSyncPhase env c snap
  match snap.lastProcessedInputSequence with
  | none => c2
  | some n =>
    if n ≤ c2.lastAckedInputSequence then c2
    else { c2 with lastAckedInputSequence := n }

/-!
Concrete states used by witnesses and counterexamples.
-/

/-- Concrete inputs used by the reconciler witness. -/
def inpOfSeq (n : ℤ) : InputState :=
  { DEFAULT_INPUT with accelerate := decide (n % 2 = 0) }

/-- Concrete player with out-of-order buffered sequences 5, 3, 4. -/
def pQueued : PlayerInternal :=
  { freshPlayer (Track.make 1024 768) "a" "Ann" with
    inputQueue := [(5, inpOfSeq 5), (3, inpOfSeq 3), (4, inpOfSeq 4)] }

/-- Concrete player one finish-line crossing away from winning: inside
checkpoint 0 of the real track, lapActive, lap count 4. -/
def pFinishLine : PlayerInternal :=
  { freshPlayer (Track.make 1024 768) "a" "Ann" with
    position := ⟨512, 556⟩, nextCheckpoint := 0, lapActive := true, lap := 4 }

/-- Concrete finished game holding one player. -/
def gFinished : Game :=
  { Game.init.addPlayer "a" "Ann" with
    raceFinished := true, winner := some ("a", "Ann") }

/-- Forward-pointing math environment, agreeing with cos/sin at the
only heading (0) reached in the concrete runs below. -/
def envEast : MathEnv :=
  ⟨fun _ => 1, fun _ => 0⟩

/-- Accelerate-only input. -/
def inpAccel : InputState :=
  { DEFAULT_INPUT with accelerate := true }

/-- Server state reached from start by one connection ("A") and one
queued input — no `race:start` was ever handled, so no countdown ran and
no `race:started` was emitted for any room. -/
def sPreRace : ServerState :=
  (handleMessage (handleConnection ServerState.init "A").1 "A"
    (ClientMsg.input 0 inpAccel) "f" "0000").1

/-- Server state with a room "t1" hosted by session "A" whose race
simulation is finished (the state a connection plus track:create reaches
once the race ends). -/
def sFinishedRoom : ServerState :=
  { game := { Game.init.addPlayer "A" "Player" with
              raceFinished := true, winner := some ("A", "Player") }
    sessions := [⟨"A", "Player", some "t1"⟩]
    tracks := [⟨"t1", [("A", "Player")], 2, "A"⟩]
    countdownTimers := []
    tickCount := 0 }

/-- Server state with a full two-member room "t1" and a third session
"C" outside any room. -/
def sFullRoom : ServerState :=
  { game := Game.init
    sessions := [⟨"A", "Player", some "t1"⟩, ⟨"B", "Player", some "t1"⟩,
                 ⟨"C", "Player", none⟩]
    tracks := [⟨"t1", [("A", "Player"), ("B", "Player")], 2, "A"⟩]
    countdownTimers := []
    tickCount := 0 }

/-- The session record of "C" in sFullRoom. -/
def sessC : Session := ⟨"C", "Player", none⟩

/-- The session record of "A" in sFullRoom. -/
def sessA : Session := ⟨"A", "Player", some "t1"⟩

/-- The room record of "t1" in sFullRoom. -/
def roomT1 : TrackRoom := ⟨"t1", [("A", "Player"), ("B", "Player")], 2, "A"⟩

/-- Client state that has already acknowledged sequence 7 and knows only
its local car. -/
def cStale : ClientState :=
  ⟨[("local", ⟨⟨512, 599⟩, 0, ⟨0, 0⟩⟩)], "local", none, 7⟩

/-- Snapshot carrying a remote player "B" but a stale (already
acknowledged) sequence 7. -/
def snapStale : Snapshot :=
  ⟨[⟨"B", ⟨10, 20⟩, 0, 0⟩], some 7⟩

theorem mem_candidateSequences {p : PlayerInternal} {s : ℤ} :
    s ∈ candidateSequences p ↔ s ∈ keysOf p ∧ p.lastProcessedInputSequence < s := by
  simp [candidateSequences, keysOf, List.mem_filter]

theorem lookupSeq_isSome_of_mem {p : PlayerInternal} {s : ℤ}
    (h : s ∈ keysOf p) : ∃ i, lookupSeq p.inputQueue s = some i := by
  simp only [keysOf, List.mem_map] at h
  obtain ⟨e, he, hfst⟩ := h
  have hs : (p.inputQueue.find? (fun e => e.1 = s)).isSome := by
    rw [List.find?_isSome]
    exact ⟨e, he, by simp [hfst]⟩
  obtain ⟨e', he'⟩ := Option.isSome_iff_exists.mp hs
  exact ⟨e'.2, by simp [lookupSeq, he']⟩

theorem consume_of_candidates_nil {p : PlayerInternal}
    (h : candidateSequences p = []) : consumeNextInput p = p := by
  simp [consumeNextInput, h]

theorem consume_of_candidates_cons {p : PlayerInternal} {x : ℤ} {xs : List ℤ}
    (h : candidateSequences p = x :: xs) :
    ∃ input, lookupSeq p.inputQueue x = some input ∧
      consumeNextInput p =
        { p with
          inputQueue := p.inputQueue.filter (fun e => e.1 ≠ x)
          lastProcessedInputSequence := x
          lastInput := input } := by
  have hx : x ∈ candidateSequences p := by simp [h]
  have hk : x ∈ keysOf p := (mem_candidateSequences.mp hx).1
  obtain ⟨i, hi⟩ := lookupSeq_isSome_of_mem hk
  exact ⟨i, hi, by simp [consumeNextInput, h, hi]⟩

/-- C1: the input reconciler — a queue call for an already-buffered
sequence is a no-op (first value wins); when no buffered sequence exceeds
the watermark, consumeNext leaves the player (in particular the
last-applied input) unchanged; the watermark never decreases; and when
some buffered sequence exceeds the watermark, consumeNext removes and
applies the smallest such sequence, which becomes the new watermark —
hence repeated consumption yields strictly increasing sequence numbers
and each sequence is consumed at most once. -/
theorem input_reconciler_spec (p : PlayerInternal) :
    (∀ seq input, (lookupSeq p.inputQueue seq).isSome = true →
        queuePlayer seq input p = p) ∧
    ((∀ s ∈ keysOf p, s ≤ p.lastProcessedInputSequence) → consumeNextInput p = p) ∧
    (consumeNextInput p = p ∨
      p.lastProcessedInputSequence < (consumeNextInput p).lastProcessedInputSequence) ∧
    (∀ s ∈ keysOf p, p.lastProcessedInputSequence < s →
        p.lastProcessedInputSequence < (consumeNextInput p).lastProcessedInputSequence ∧
        (consumeNextInput p).lastProcessedInputSequence ∈ keysOf p ∧
        (consumeNextInput p).lastProcessedInputSequence ≤ s ∧
        lookupSeq p.inputQueue (consumeNextInput p).lastProcessedInputSequence =
          some (consumeNextInput p).lastInput ∧
        (consumeNextInput p).inputQueue =
          p.inputQueue.filter
            (fun e => e.1 ≠ (consumeNextInput p).lastProcessedInputSequence)) := by
  refine ⟨?_, ?_, ?_, ?_⟩
  · intro seq input h
    simp [queuePlayer, h]
  · intro hall
    apply consume_of_candidates_nil
    rw [List.eq_nil_iff_forall_not_mem]
    intro x hx
    obtain ⟨hk, hlt⟩ := mem_candidateSequences.mp hx
    exact absurd (hall x hk) (not_le.mpr hlt)
  · cases hc : candidateSequences p with
    | nil => exact Or.inl (consume_of_candidates_nil hc)
    | cons x xs =>
      obtain ⟨input, _, heq⟩ := consume_of_candidates_cons hc
      refine Or.inr ?_
      rw [heq]
      exact (mem_candidateSequences.mp (by simp [hc])).2
  · intro s hs hlt
    have hsc : s ∈ candidateSequences p := mem_candidateSequences.mpr ⟨hs, hlt⟩
    cases hc : candidateSequences p with
    | nil => rw [hc] at hsc; exact absurd hsc (List.not_mem_nil s)
    | cons x xs =>
      obtain ⟨input, hlook, heq⟩ := consume_of_candidates_cons hc
      have hxmem : x ∈ candidateSequences p := by simp [hc]
      obtain ⟨hxk, hxlt⟩ := mem_candidateSequences.mp hxmem
      have hsorted : List.Sorted (· ≤ ·) (candidateSequences p) :=
        List.sorted_insertionSort _ _
      rw [hc, List.sorted_cons] at hsorted
      have hxle : x ≤ s := by
        rw [hc] at hsc
        rcases List.mem_cons.mp hsc with h1 | h2
        · exact le_of_eq h1.symm
        · exact hsorted.1 s h2
      rw [heq]
      exact ⟨hxlt, hxk, hxle, hlook, rfl⟩

/-- Witness for input_reconciler_spec: on the buffer {5, 3, 4} with
watermark −1, a duplicate queue of sequence 5 is a no-op and the first
consumption picks sequence 3 (the smallest), strictly above −1. -/
theorem input_reconciler_spec_witness :
    queuePlayer 5 (inpOfSeq 7) pQueued = pQueued ∧
    (-1 : ℤ) < (consumeNextInput pQueued).lastProcessedInputSequence ∧
    (consumeNextInput pQueued).lastProcessedInputSequence ≤ 3 := by
  have h := input_reconciler_spec pQueued
  have h4 := h.2.2.2 3 (by decide) (by decide)
  exact ⟨h.1 5 (inpOfSeq 7) (by decide), h4.1, h4.2.2.1⟩

/-- C10: addPlayer is idempotent at the public interface — a further
addPlayer call for an id already present leaves the entire game state
unchanged, for any name. -/
theorem addPlayer_idempotent (g : Game) (id name : String)
    (h : g.hasPlayer id = true) : g.addPlayer id name = g := by
  simp [Game.addPlayer, h]

/-- Witness for addPlayer_idempotent: a concrete game already holding
player "a" is unchanged by a second addPlayer with a different name. -/
theorem addPlayer_idempotent_witness :
    (Game.init.addPlayer "a" "Ann").addPlayer "a" "Bob" =
      Game.init.addPlayer "a" "Ann" :=
  addPlayer_idempotent (Game.init.addPlayer "a" "Ann") "a" "Bob" (by decide)

/-- C9: an applied input with the reset flag set returns the player to
spawn with speed and heading 0, re-arms checkpoint progress, performs no
kinematic integration, and clears the stored reset flag; with no further
input a second update leaves the state fixed (exactly one reset). -/
theorem reset_input_spec (env : MathEnv) (dt : ℚ) (p : PlayerInternal)
    (h : p.lastInput.reset = true) :
    updatePlayer env dt p =
      { p with
        position := p.spawn
        speed := 0
        heading := 0
        nextCheckpoint := 1
        onCheckpoint := false
        lapActive := false
        lastInput := { p.lastInput with reset := false } } ∧
    (updatePlayer env dt p).lastInput.reset = false ∧
    (p.lastInput = { DEFAULT_INPUT with reset := true } →
      updatePlayer env dt (updatePlayer env dt p) = updatePlayer env dt p) := by
  refine ⟨by simp [updatePlayer, h], by simp [updatePlayer, h], ?_⟩
  intro hin
  simp only [updatePlayer, h, if_pos]
  simp [hin, DEFAULT_INPUT, clampSpeed, MAX_SPEED, MAX_REVERSE]

/-- Witness for reset_input_spec at a concrete player mid-track with a
pending reset input. -/
theorem reset_input_spec_witness :
    updatePlayer ⟨fun _ => 1, fun _ => 0⟩ (1/60)
        { id := "a", name := "Ann", position := ⟨3, 4⟩, heading := 2, speed := 9,
          lap := 1, lastProcessedInputSequence := 5, inputQueue := [],
          lastInput := { DEFAULT_INPUT with reset := true }, spawn := ⟨1, 2⟩,
          nextCheckpoint := 2, onCheckpoint := true, lapActive := true } =
      { id := "a", name := "Ann", position := ⟨1, 2⟩, heading := 0, speed := 0,
        lap := 1, lastProcessedInputSequence := 5, inputQueue := [],
        lastInput := DEFAULT_INPUT, spawn := ⟨1, 2⟩,
        nextCheckpoint := 1, onCheckpoint := false, lapActive := false } := by
  have h := reset_input_spec ⟨fun _ => 1, fun _ => 0⟩ (1/60)
    { id := "a", name := "Ann", position := ⟨3, 4⟩, heading := 2, speed := 9,
      lap := 1, lastProcessedInputSequence := 5, inputQueue := [],
      lastInput := { DEFAULT_INPUT with reset := true }, spawn := ⟨1, 2⟩,
      nextCheckpoint := 2, onCheckpoint := true, lapActive := true } (by decide)
  rw [h.1]
  simp [DEFAULT_INPUT]

/-- C2: the per-player checkpoint/lap state machine — leaving the
checkpoint region resets to off; no transition fires while the player
stays on a checkpoint (edge-triggered); on an off-to-on entry whose index
equals nextCheckpoint: index 0 with lapActive increments the lap, clears
lapActive, resets nextCheckpoint to 1 and, when the race is not already
finished and the new lap count reaches LAPS_TO_WIN, records the race
finished with this player as winner; otherwise nextCheckpoint advances
mod the checkpoint count and entering index 1 sets lapActive. -/
theorem checkpoint_transition_spec (t : Track) (fl : RaceFlags) (p : PlayerInternal) :
    (t.getCheckpointIndex p.position = none →
        updateCheckpointProgress t fl p = ({ p with onCheckpoint := false }, fl)) ∧
    (∀ idx, t.getCheckpointIndex p.position = some idx → p.onCheckpoint = true →
        updateCheckpointProgress t fl p = (p, fl)) ∧
    (t.getCheckpointIndex p.position = some p.nextCheckpoint → p.onCheckpoint = false →
      p.nextCheckpoint = 0 → p.lapActive = true →
        updateCheckpointProgress t fl p =
          ({ p with onCheckpoint := true, lap := p.lap + 1,
                    lapActive := false, nextCheckpoint := 1 },
            if fl.raceFinished = false ∧ LAPS_TO_WIN ≤ p.lap + 1 then
              ⟨true, some (p.id, p.name)⟩
            else fl)) ∧
    (t.getCheckpointIndex p.position = some p.nextCheckpoint → p.onCheckpoint = false →
      ¬(p.nextCheckpoint = 0 ∧ p.lapActive = true) →
        updateCheckpointProgress t fl p =
          ({ p with onCheckpoint := true,
                    nextCheckpoint := (p.nextCheckpoint + 1) % t.checkpoints.length,
                    lapActive := if p.nextCheckpoint = 1 then true else p.lapActive },
            fl)) := by
  refine ⟨?_, ?_, ?_, ?_⟩
  · intro h
    simp [updateCheckpointProgress, h]
  · intro idx h hon
    simp [updateCheckpointProgress, h, hon]
  · intro h hoff h0 hact
    simp only [updateCheckpointProgress, h, hoff, Bool.false_eq_true, if_false]
    rw [if_neg (fun hne => hne rfl)]
    rw [if_pos ⟨h0, hact⟩]
    by_cases hc : fl.raceFinished = false ∧ LAPS_TO_WIN ≤ p.lap + 1
    · rw [if_pos hc, if_pos hc]
    · rw [if_neg hc, if_neg hc]
  · intro h hoff hnot
    simp only [updateCheckpointProgress, h, hoff, Bool.false_eq_true, if_false]
    rw [if_neg (fun hne => hne rfl)]
    rw [if_neg hnot]
    by_cases h1 : p.nextCheckpoint = 1
    · rw [if_pos h1, if_pos h1]
    · rw [if_neg h1, if_neg h1]

/-- Witness for checkpoint_transition_spec: the player crossing the
finish line on lap 5 ends the race with themselves as winner. -/
theorem checkpoint_transition_spec_witness :
    (updateCheckpointProgress (Track.make 1024 768) ⟨false, none⟩ pFinishLine).2 =
      ⟨true, some ("a", "Ann")⟩ ∧
    (updateCheckpointProgress (Track.make 1024 768) ⟨false, none⟩ pFinishLine).1.lap = 5 := by
  have h := (checkpoint_transition_spec (Track.make 1024 768) ⟨false, none⟩
    pFinishLine).2.2.1 (by with_unfolding_all decide) (by decide) (by decide) (by decide)
  rw [h]
  exact ⟨by decide, by decide⟩

/-- C3: once the race's finished flag is true, step leaves every
per-player state, the finished flag and the winner unchanged — only the
tick advances — and the flag can never revert to false under step;
resetRace clears finished and winner, zeroes the tick and returns every
player to spawn with heading 0, speed 0, lap 0, watermark −1 and an
empty input queue. -/
theorem race_freeze_reset_spec (env : MathEnv) (dt : ℚ) (g : Game) :
    (g.raceFinished = true → g.step env dt = { g with tick := g.tick + 1 }) ∧
    (g.raceFinished = true →
        (g.step env dt).raceFinished = true ∧ (g.step env dt).winner = g.winner ∧
        (g.step env dt).players = g.players) ∧
    (g.resetRace.raceFinished = false ∧ g.resetRace.winner = none ∧
      g.resetRace.tick = 0 ∧
      ∀ q ∈ g.resetRace.players,
        q.position = q.spawn ∧ q.heading = 0 ∧ q.speed = 0 ∧ q.lap = 0 ∧
        q.lastProcessedInputSequence = -1 ∧ q.inputQueue = []) := by
  have hfr : g.raceFinished = true → g.step env dt = { g with tick := g.tick + 1 } := by
    intro h
    simp [Game.step, h]
  refine ⟨hfr, ?_, ?_, ?_, ?_, ?_⟩
  · intro h
    rw [hfr h]
    exact ⟨h, rfl, rfl⟩
  · rfl
  · rfl
  · rfl
  · intro q hq
    simp only [Game.resetRace, List.mem_map] at hq
    obtain ⟨r, _, hr⟩ := hq
    subst hr
    exact ⟨rfl, rfl, rfl, rfl, rfl, rfl⟩

/-- Witness for race_freeze_reset_spec: stepping the concrete finished
game leaves the player list intact and the flag set. -/
theorem race_freeze_reset_spec_witness :
    (gFinished.step ⟨fun _ => 1, fun _ => 0⟩ (1/60)).players = gFinished.players ∧
    (gFinished.step ⟨fun _ => 1, fun _ => 0⟩ (1/60)).raceFinished = true := by
  have h := (race_freeze_reset_spec ⟨fun _ => 1, fun _ => 0⟩ (1/60) gFinished).2.1
    (by decide)
  exact ⟨h.2.2, h.1⟩

/-- C4 (amended): the tick loop steps the single shared simulation
unconditionally every tick — its effect on the game is identical under
any room registry and countdown-timer registry, so simulation stepping
(and with it checkpoint/lap evaluation) is not gated on a per-room
Racing state. -/
theorem tick_steps_unconditionally (env : MathEnv) (s : ServerState)
    (tracks2 : List TrackRoom) (timers2 : List String) :
    (serverTick env s).game = s.game.step env STEP ∧
    (serverTick env { s with tracks := tracks2, countdownTimers := timers2 }).game =
      (serverTick env s).game :=
  ⟨rfl, rfl⟩

/-- C4 (counterexample): in the concrete state reached by one connection
and one queued input — no race:start was ever handled, no countdown is
pending, so no race:started was emitted — a single tick already mutates
the player's position. -/
theorem tick_moves_before_race_started_cex :
    sPreRace.countdownTimers = [] ∧
    ((serverTick envEast sPreRace).game.players.map fun p => p.position) ≠
      (sPreRace.game.players.map fun p => p.position) := by
  constructor
  · with_unfolding_all decide
  · with_unfolding_all decide

/-- C6: the server's message dispatch has no guard for race:restart, so
a restart request from the host of a room whose race is finished is
silently dropped — the entire server state (rooms, sessions, the shared
game with its finished flag and winner) is unchanged and nothing is
sent — while Game.resetRace, which would clear the finished flag, has no
caller in any handler. -/
theorem race_restart_dropped :
    handleMessage sFinishedRoom "A" ClientMsg.raceRestart "fresh" "1234" =
      (sFinishedRoom, []) ∧
    sFinishedRoom.game.raceFinished = true ∧
    (getTrack sFinishedRoom "t1").map TrackRoom.hostId = some "A" ∧
    sFinishedRoom.game.resetRace.raceFinished = false := by
  refine ⟨rfl, rfl, by decide, rfl⟩

theorem syncCars_lastAcked (env : MathEnv) (c : ClientState) (ps : List NetPlayer) :
    (syncCars env c ps).lastAckedInputSequence = c.lastAckedInputSequence :=
  rfl

theorem syncLocalPlayerId_lastAcked (c : ClientState) :
    (syncLocalPlayerId c).lastAckedInputSequence = c.lastAckedInputSequence := by
  unfold syncLocalPlayerId
  cases hs : c.sessionId with
  | none => rfl
  | some sid =>
    by_cases h : sid = c.localPlayerId
    · simp [h]
    · simp only [h, if_false]
      cases hf : (c.cars.find? (fun e => e.1 = c.localPlayerId)).map Prod.snd <;>
        simp [hf]

theorem clientSyncPhase_lastAcked (env : MathEnv) (c : ClientState) (snap : Snapshot) :
    (clientSyncPhase env c snap).lastAckedInputSequence = c.lastAckedInputSequence := by
  unfold clientSyncPhase
  by_cases h : 0 < snap.players.length
  · simp only [h, if_true, syncCars_lastAcked, syncLocalPlayerId_lastAcked]
  · simp only [h, if_false, syncLocalPlayerId_lastAcked]

/-- C5 (amended): when a received snapshot reports a sequence that is
not strictly ahead of the locally tracked ack watermark, the watermark
is left unchanged — but the snapshot is not ignored entirely: the
handler still performs the full car-sync phase (spawning/driving remote
cars and local reconciliation), which runs before the staleness check;
only the watermark update is gated. -/
theorem stale_snapshot_spec (env : MathEnv) (c : ClientState) (snap : Snapshot) (n : ℤ)
    (h1 : snap.lastProcessedInputSequence = some n)
    (h2 : n ≤ c.lastAckedInputSequence) :
    handleNetworkState env c snap = clientSyncPhase env c snap ∧
    (handleNetworkState env c snap).lastAckedInputSequence =
      c.lastAckedInputSequence := by
  have hle : n ≤ (clientSyncPhase env c snap).lastAckedInputSequence := by
    rw [clientSyncPhase_lastAcked]
    exact h2
  have heq : handleNetworkState env c snap = clientSyncPhase env c snap := by
    unfold handleNetworkState
    rw [h1]
    exact if_pos hle
  exact ⟨heq, by rw [heq, clientSyncPhase_lastAcked]⟩

/-- Witness for stale_snapshot_spec at the concrete stale client and
snapshot. -/
theorem stale_snapshot_spec_witness :
    handleNetworkState envEast cStale snapStale = clientSyncPhase envEast cStale snapStale ∧
    (handleNetworkState envEast cStale snapStale).lastAckedInputSequence =
      cStale.lastAckedInputSequence :=
  stale_snapshot_spec envEast cStale snapStale 7 (by rfl) (by decide)

/-- C5 (counterexample): a snapshot reporting the already-acknowledged
sequence 7 is not ignored entirely — it spawns a local representation
for remote player "B" — although the ack watermark stays 7. -/
theorem stale_snapshot_cex :
    (handleNetworkState envEast cStale snapStale).cars.map Prod.fst = ["local", "B"] ∧
    cStale.cars.map Prod.fst = ["local"] ∧
    (handleNetworkState envEast cStale snapStale).lastAckedInputSequence = 7 := by
  refine ⟨?_, ?_, ?_⟩ <;> with_unfolding_all decide

/-- C8: leaveTrack removes the session from its room's member list; when
the leaver was host and members remain, the first remaining member in
join order becomes the new host; when the member list empties, the room
is removed from the registry and its pending countdown timer is
cancelled. -/
theorem leave_track_spec (s : ServerState) (sess : Session) (tid : String)
    (track : TrackRoom) (hs : sess.trackId = some tid)
    (ht : s.tracks.find? (fun t => t.id = tid) = some track) :
    (track.players.filter (fun pl => pl.1 ≠ sess.id) = [] →
      (∀ t ∈ (leaveTrack s sess).1.tracks, t.id ≠ tid) ∧
      tid ∉ (leaveTrack s sess).1.countdownTimers) ∧
    (∀ hd tl, track.players.filter (fun pl => pl.1 ≠ sess.id) = hd :: tl →
      (leaveTrack s sess).1.tracks.find? (fun t => t.id = tid) =
        some { track with
          players := hd :: tl
          hostId := if track.hostId = sess.id then hd.1 else track.hostId } ∧
      (leaveTrack s sess).1.countdownTimers = s.countdownTimers ∧
      sess.id ∉ (hd :: tl).map Prod.fst) := by
  have htid : track.id = tid := by simpa using List.find?_some ht
  constructor
  · intro hemp
    simp only [leaveTrack, hs, ht, hemp, List.isEmpty_nil, if_true]
    constructor
    · intro t htmem
      have := (List.mem_filter.mp htmem).2
      simpa using this
    · intro hmem
      have := (List.mem_filter.mp hmem).2
      simp at this
  · intro hd tl hrem
    have hnotmem : sess.id ∉ (hd :: tl).map Prod.fst := by
      intro hmem
      obtain ⟨pl, hpl, hfst⟩ := List.mem_map.mp hmem
      rw [← hrem] at hpl
      have := (List.mem_filter.mp hpl).2
      simp [hfst] at this
    simp only [leaveTrack, hs, ht, hrem, List.isEmpty_cons, Bool.false_eq_true, if_false,
      List.head?_cons, Option.map_some', Option.getD_some]
    refine ⟨?_, by trivial, hnotmem⟩
    have hcomp :
        (fun t : TrackRoom => decide (t.id = tid)) ∘
          (fun t : TrackRoom =>
            if t.id = tid then
              { t with players := hd :: tl,
                       hostId := if track.hostId = sess.id then hd.1 else track.hostId }
            else t) =
        fun t : TrackRoom => decide (t.id = tid) := by
      funext t
      by_cases h : t.id = tid <;> simp [h]
    rw [List.find?_map, hcomp, ht]
    simp [htid]

/-- Witness for leave_track_spec: the host "A" of the full room leaves;
"B" (first remaining in join order) becomes host and the timer registry
is untouched. -/
theorem leave_track_spec_witness :
    (leaveTrack sFullRoom sessA).1.tracks.find? (fun t => t.id = "t1") =
      some ⟨"t1", [("B", "Player")], 2, "B"⟩ ∧
    (leaveTrack sFullRoom sessA).1.countdownTimers = [] := by
  have h := (leave_track_spec sFullRoom sessA "t1" roomT1 rfl (by decide)).2
    ("B", "Player") [] (by decide)
  refine ⟨?_, h.2.1⟩
  rw [h.1]
  decide

theorem eq_of_nodup_track_ids {l : List TrackRoom}
    (hnd : (l.map TrackRoom.id).Nodup) {a b : TrackRoom}
    (ha : a ∈ l) (hb : b ∈ l) (hid : a.id = b.id) : a = b :=
  List.inj_on_of_nodup_map hnd ha hb hid

theorem leaveTrack_tracks_shape (s : ServerState) (sess : Session)
    (hnd : (s.tracks.map TrackRoom.id).Nodup) :
    ∀ t' ∈ (leaveTrack s sess).1.tracks, ∃ t ∈ s.tracks,
      t'.id = t.id ∧ t'.capacity = t.capacity ∧
      t'.players.length ≤ t.players.length := by
  intro t' ht'
  cases hs : sess.trackId with
  | none =>
    simp only [leaveTrack, hs] at ht'
    exact ⟨t', ht', rfl, rfl, le_refl _⟩
  | some tid =>
    cases hf : s.tracks.find? (fun t => t.id = tid) with
    | none =>
      simp only [leaveTrack, hs, hf] at ht'
      exact ⟨t', ht', rfl, rfl, le_refl _⟩
    | some track =>
      have htr : track ∈ s.tracks := List.mem_of_find?_eq_some hf
      have htid : track.id = tid := by simpa using List.find?_some hf
      cases hemp : (track.players.filter (fun pl => pl.1 ≠ sess.id)).isEmpty with
      | true =>
        simp only [leaveTrack, hs, hf, hemp, if_true] at ht'
        exact ⟨t', (List.mem_filter.mp ht').1, rfl, rfl, le_refl _⟩
      | false =>
        simp only [leaveTrack, hs, hf, hemp, Bool.false_eq_true, if_false] at ht'
        obtain ⟨t, htmem, hft⟩ := List.mem_map.mp ht'
        by_cases h : t.id = tid
        · have hteq : t = track := eq_of_nodup_track_ids hnd htmem htr (h.trans htid.symm)
          rw [if_pos h] at hft
          subst hteq
          refine ⟨t, htmem, ?_, ?_, ?_⟩
          · rw [← hft]
          · rw [← hft]
          · rw [← hft]
            exact List.length_filter_le _ _
        · rw [if_neg h] at hft
          rw [← hft]
          exact ⟨t, htmem, rfl, rfl, le_refl _⟩

/-- C7: every domain-level rejected request — creating a room whose
requested id already exists, joining an absent room, joining a full
room — is answered by exactly one targeted error message to the
requester with no state change; and (under the registry's unique-id
invariant) create and join preserve the invariant that no room's member
count exceeds its capacity. -/
theorem rejected_request_spec (s : ServerState) (sess : Session) :
    (∀ requestedId freshId,
        s.tracks.any (fun t => t.id = (requestedId.getD freshId : String)) = true →
        createTrackForSession s sess requestedId freshId =
          (s, [(sess.id, OutMsg.error "Track already exists.")])) ∧
    (∀ tid, s.tracks.find? (fun t => t.id = tid) = none →
        joinTrackForSession s sess tid =
          (s, [(sess.id, OutMsg.error "Track not found.")])) ∧
    (∀ tid track, s.tracks.find? (fun t => t.id = tid) = some track →
        track.capacity ≤ track.players.length →
        joinTrackForSession s sess tid =
          (s, [(sess.id, OutMsg.error "Track is full.")])) ∧
    ((s.tracks.map TrackRoom.id).Nodup →
      (∀ t ∈ s.tracks, t.players.length ≤ t.capacity) →
      (∀ tid, ∀ t ∈ (joinTrackForSession s sess tid).1.tracks,
          t.players.length ≤ t.capacity) ∧
      (∀ requestedId freshId,
          ∀ t ∈ (createTrackForSession s sess requestedId freshId).1.tracks,
          t.players.length ≤ t.capacity)) := by
  refine ⟨?_, ?_, ?_, ?_⟩
  · intro requestedId freshId h
    simp only [createTrackForSession, h, if_true, sendError]
  · intro tid h
    simp only [joinTrackForSession, h, sendError]
  · intro tid track h hfull
    simp only [joinTrackForSession, h]
    rw [if_pos hfull]
    simp only [sendError]
  · intro hnd hbound
    constructor
    · intro tid t ht
      cases hf : s.tracks.find? (fun t => t.id = tid) with
      | none =>
        simp only [joinTrackForSession, hf] at ht
        exact hbound t ht
      | some track =>
        by_cases hfull : track.capacity ≤ track.players.length
        · simp only [joinTrackForSession, hf] at ht
          rw [if_pos hfull] at ht
          exact hbound t ht
        · have htr : track ∈ s.tracks := List.mem_of_find?_eq_some hf
          have htid : track.id = tid := by simpa using List.find?_some hf
          simp only [joinTrackForSession, hf] at ht
          rw [if_neg hfull] at ht
          obtain ⟨t', ht', hgt⟩ := List.mem_map.mp ht
          obtain ⟨t0, ht0, hid, hcap, hlen⟩ :=
            leaveTrack_tracks_shape s sess hnd t' ht'
          by_cases h : t'.id = tid
          · have ht0eq : t0 = track :=
              eq_of_nodup_track_ids hnd ht0 htr ((hid.symm.trans h).trans htid.symm)
            rw [if_pos h] at hgt
            rw [ht0eq] at hlen hcap
            have hlt : track.players.length < track.capacity := Nat.lt_of_not_le hfull
            rw [← hgt]
            simp only [List.length_append, List.length_cons, List.length_nil]
            omega
          · rw [if_neg h] at hgt
            subst hgt
            calc t'.players.length ≤ t0.players.length := hlen
              _ ≤ t0.capacity := hbound t0 ht0
              _ = t'.capacity := hcap.symm
    · intro requestedId freshId t ht
      cases hdup : s.tracks.any (fun t => t.id = (requestedId.getD freshId : String)) with
      | true =>
        simp only [createTrackForSession, hdup, if_true] at ht
        exact hbound t ht
      | false =>
        simp only [createTrackForSession, hdup, Bool.false_eq_true, if_false] at ht
        rcases List.mem_append.mp ht with hleft | hright
        · obtain ⟨t0, ht0, _, hcap, hlen⟩ :=
            leaveTrack_tracks_shape s sess hnd t hleft
          calc t.players.length ≤ t0.players.length := hlen
            _ ≤ t0.capacity := hbound t0 ht0
            _ = t.capacity := hcap.symm
        · rw [List.mem_singleton.mp hright]
          show 1 ≤ trackCapacity
          decide

/-- Witness for rejected_request_spec in the concrete full-room state:
"C" joining the full "t1" or a missing "t9", and "C" re-creating "t1",
each yield exactly one targeted error and leave the state untouched; the
capacity bound holds afterwards. -/
theorem rejected_request_spec_witness :
    joinTrackForSession sFullRoom sessC "t1" =
      (sFullRoom, [(sessC.id, OutMsg.error "Track is full.")]) ∧
    joinTrackForSession sFullRoom sessC "t9" =
      (sFullRoom, [(sessC.id, OutMsg.error "Track not found.")]) ∧
    createTrackForSession sFullRoom sessC (some "t1") "fresh" =
      (sFullRoom, [(sessC.id, OutMsg.error "Track already exists.")]) ∧
    (∀ t ∈ (joinTrackForSession sFullRoom sessC "t1").1.tracks,
        t.players.length ≤ t.capacity) := by
  have h := rejected_request_spec sFullRoom sessC
  exact ⟨h.2.2.1 "t1" roomT1 (by decide) (by decide),
         h.2.1 "t9" (by decide),
         h.1 (some "t1") "fresh" (by decide),
         (h.2.2.2 (by decide) (by decide)).1 "t1"⟩

end Racing
